import Mathlib

/-!
Verification of the TcpSocektPro repository: a line-oriented TCP echo server
with bounded admission control, heartbeats, TTL rotation (src/server/server.go
and its variant src/unnamed/part_000), and a reconnecting client
(src/client/client.go).  The Go code is shallowly embedded: byte strings are
`List Char`, the per-connection handler is a function from the sequence of
read results to the list of observable events it performs, the accept loop is
a step function over an explicit acceptor state, and the client's cycle is a
function from its environment to the cycle's outcome.
-/

namespace TcpSockPro

/-- Byte strings of the wire protocol, as lists of characters. -/
abbrev Str := List Char

/-- Go `unicode.IsSpace`: the Unicode White_Space property, which is what
`strings.TrimSpace` trims from both ends. -/
def goIsSpace (c : Char) : Bool :=
  c.val = 9 || c.val = 10 || c.val = 11 || c.val = 12 || c.val = 13 || c.val = 32 ||
  c.val = 0x85 || c.val = 0xA0 || c.val = 0x1680 ||
  (0x2000 ≤ c.val && c.val ≤ 0x200A) ||
  c.val = 0x2028 || c.val = 0x2029 || c.val = 0x202F || c.val = 0x205F || c.val = 0x3000

/-- Drop leading characters satisfying `goIsSpace`. -/
def trimLeftSpace : Str → Str
  | [] => []
  | c :: rest => if goIsSpace c then trimLeftSpace rest else c :: rest

/-- Go `strings.TrimSpace`: drop White_Space characters from both ends. -/
def trimSpace (s : Str) : Str :=
  (trimLeftSpace (trimLeftSpace s).reverse).reverse

/-- Go `time.Duration` is counted in nanoseconds. -/
def millisecond : Nat := 1000000

def second : Nat := 1000 * millisecond

def hour : Nat := 3600 * second

/-- The outcome of one `reader.ReadString('\n')` call that failed.  The three
observable flags mirror the tests the Go handler performs on the error
(`err != io.EOF`, the `net.Error` type assertion, `netErr.Timeout()`);
`ttlForced` is a ghost flag recording whether the deadline that expired had
been forced into the past by the TTL watchdog (Go's error value itself does
not record this: a TTL-forced expiry surfaces as an ordinary timeout error,
so `ttlForced` never appears in the embedded handler code). -/
structure ReadErr where
  isEOF : Bool
  isNetError : Bool
  isTimeout : Bool
  ttlForced : Bool
deriving DecidableEq

/-- The read error produced when the TTL watchdog has forced the read
deadline into the past: Go surfaces it as an ordinary non-EOF net timeout
error (`os.ErrDeadlineExceeded`), so all three observable flags are set as
for an idle timeout; only the ghost flag records the TTL cause. -/
def ttlForcedTimeout : ReadErr :=
  { isEOF := false, isNetError := true, isTimeout := true, ttlForced := true }

/-- The outcome of one `reader.ReadString('\n')` call: a full line (with its
terminator) or an error. -/
inductive ReadResult where
  | line (s : Str)
  | err (e : ReadErr)
deriving DecidableEq

/-- Observable actions of a connection handler, in order: deadline updates on
the socket, bytes written (each `writer.WriteString`), flushes, counter
updates, TTL-watchdog arming/cancelling, and the final socket close. -/
inductive HEvent where
  | armTTL (d : Nat)
  | setReadDeadline (d : Nat)
  | setWriteDeadline (d : Nat)
  | write (s : Str)
  | flush
  | timeoutErrsIncr
  | cancelTTL
  | closeConn
  | releaseSem
  | decrCurrentConns
deriving DecidableEq

/-- The bytes written by a list of handler events, in order. -/
def writesOf : List HEvent → List Str
  | [] => []
  | HEvent.write s :: rest => s :: writesOf rest
  | _ :: rest => writesOf rest

/-- How many times a list of handler events increments `timeoutErrs`. -/
def countTimeoutIncr : List HEvent → Nat
  | [] => 0
  | HEvent.timeoutErrsIncr :: rest => countTimeoutIncr rest + 1
  | _ :: rest => countTimeoutIncr rest

/-- How many times a list of handler events releases the admission slot
(`<-sem`). -/
def countRelease : List HEvent → Nat
  | [] => 0
  | HEvent.releaseSem :: rest => countRelease rest + 1
  | _ :: rest => countRelease rest

namespace ServerMain

/-- src/server/server.go: `readTimeout = 60 * time.Second`. -/
def readTimeout : Nat := 60 * second

/-- src/server/server.go: `writeTimeout = 5 * time.Second`. -/
def writeTimeout : Nat := 5 * second

/-- src/server/server.go: `maxConnAge = 1 * time.Hour`. -/
def maxConnAge : Nat := 1 * hour

/-- One iteration of the handler loop in src/server/server.go
(`handleConnection`, lines 125-153) on a successfully read line `s`:
set the read deadline, trim the line, and either answer the heartbeat
(`line == "PING"`) with `"PONG\n"` or echo `"ECHO: " + line + "\n"`,
each under a fresh write deadline and followed by a flush. -/
def lineEvents (s : Str) : List HEvent :=
  let line := trimSpace s
  if line = "PING".data then
    [HEvent.setReadDeadline readTimeout, HEvent.setWriteDeadline writeTimeout,
     HEvent.write "PONG\n".data, HEvent.flush]
  else
    [HEvent.setReadDeadline readTimeout, HEvent.setWriteDeadline writeTimeout,
     HEvent.write ("ECHO: ".data ++ line ++ ['\n']), HEvent.flush]

/-- The read/reply loop of `handleConnection` in src/server/server.go over the
sequence of read results: each successful line produces its iteration's
events and the loop continues; the first read error sets the read deadline,
increments the timeout counter exactly when the error is a non-EOF net
timeout error (`err != io.EOF`, `netErr.Timeout()`), and returns. -/
def handleLoop : List ReadResult → List HEvent
  | [] => []
  | ReadResult.line s :: rest => lineEvents s ++ handleLoop rest
  | ReadResult.err e :: _ =>
      HEvent.setReadDeadline readTimeout ::
        (if !e.isEOF && e.isNetError && e.isTimeout then [HEvent.timeoutErrsIncr] else [])

/-- `handleConnection` in src/server/server.go for a run whose reads are
`inputs` and which then returns: arm the TTL watchdog (`context.WithTimeout`
over `maxConnAge`), run the loop, then the deferred `cancel()` and
`conn.Close()` (LIFO order of the defers). -/
def handleConnection (inputs : List ReadResult) : List HEvent :=
  HEvent.armTTL maxConnAge :: handleLoop inputs ++ [HEvent.cancelTTL, HEvent.closeConn]

/-- The dispatched goroutine of src/server/server.go lines 94-98:
`handleConnection(conn); <-sem; currentConns.Add(-1)`. -/
def connGoroutine (inputs : List ReadResult) : List HEvent :=
  handleConnection inputs ++ [HEvent.releaseSem, HEvent.decrCurrentConns]

end ServerMain

/-- The read results of a terminated handler run: `lines` successful reads
followed by the read error that ended the loop. -/
def runInputs (lines : List Str) (e : ReadErr) : List ReadResult :=
  lines.map ReadResult.line ++ [ReadResult.err e]

namespace Part000

/-- src/unnamed/part_000: `readTimeout = 60 * time.Second`. -/
def readTimeout : Nat := 60 * second

/-- src/unnamed/part_000: `writeTimeout = 5 * time.Second`. -/
def writeTimeout : Nat := 5 * second

/-- src/unnamed/part_000: `maxConnAge = 1 * time.Hour`. -/
def maxConnAge : Nat := 1 * hour

/-- One iteration of the handler loop in src/unnamed/part_000
(`handleConnection`, lines 112-144) on a successfully read line `s`:
set the read deadline, `strings.TrimSpace` the line, and either answer the
heartbeat (`line == "PING"`) with `"PONG\n"` or echo
`"ECHO: " + line + "\n"`, each under a fresh write deadline and flushed. -/
def lineEvents (s : Str) : List HEvent :=
  let line := trimSpace s
  if line = "PING".data then
    [HEvent.setReadDeadline readTimeout, HEvent.setWriteDeadline writeTimeout,
     HEvent.write "PONG\n".data, HEvent.flush]
  else
    [HEvent.setReadDeadline readTimeout, HEvent.setWriteDeadline writeTimeout,
     HEvent.write ("ECHO: ".data ++ line ++ ['\n']), HEvent.flush]

/-- The read/reply loop of `handleConnection` in src/unnamed/part_000: each
successful line produces its iteration's events; the first read error sets
the read deadline, increments `timeoutErrs` exactly when the error is a
non-EOF net timeout error, and returns. -/
def handleLoop : List ReadResult → List HEvent
  | [] => []
  | ReadResult.line s :: rest => lineEvents s ++ handleLoop rest
  | ReadResult.err e :: _ =>
      HEvent.setReadDeadline readTimeout ::
        (if !e.isEOF && e.isNetError && e.isTimeout then [HEvent.timeoutErrsIncr] else [])

/-- `handleConnection` in src/unnamed/part_000 for a run whose reads are
`inputs` and which then returns: arm the TTL watchdog over `maxConnAge`, run
the loop, then the deferred `cancel()` and `conn.Close()`. -/
def handleConnection (inputs : List ReadResult) : List HEvent :=
  HEvent.armTTL maxConnAge :: handleLoop inputs ++ [HEvent.cancelTTL, HEvent.closeConn]

end Part000

/-! ## The accept loop with its admission gate

src/server/server.go lines 75-103 (the loop of `main`): a buffered channel
`sem` of capacity `cap` is the admission gate; a non-blocking `select` either
sends into it (admitting the connection and dispatching its handler) or hits
`default` and closes the new connection at once.  src/unnamed/part_000 lines
53-83 are the same loop, with one extra log line in the reject branch. -/

/-- The process-wide expvar counters touched by the accept loop. -/
structure Metrics where
  currentConns : Int
  totalConns : Int
deriving DecidableEq

/-- State of the accept loop: the occupancy of the `sem` channel (number of
admission slots currently held) and the counters. -/
structure AcceptorState where
  semCount : Nat
  metrics : Metrics
deriving DecidableEq

/-- What the accept loop can observe in one iteration: a successful accept, a
transient accept error (`ne.Temporary()`), any other accept error, or the
completion of one previously dispatched handler goroutine (which performs
`<-sem; currentConns.Add(-1)`). -/
inductive AcceptorEvent where
  | acceptOk
  | acceptErrTransient
  | acceptErrOther
  | handlerDone
deriving DecidableEq

/-- The externally visible action the accept loop takes on one event.
`rejectedClosed bs` records that the accepted connection was closed by the
acceptor itself after sending it exactly the bytes `bs`. -/
inductive AcceptorAction where
  | dispatched
  | rejectedClosed (bytesSent : Str)
  | sleptMs (n : Nat)
  | loggedError
  | released
deriving DecidableEq

/-- One iteration of the accept loop of src/server/server.go (lines 77-103)
with capacity `cap`:
transient accept errors sleep 10 ms and retry; other accept errors are logged
and the loop continues; a successful accept is admitted iff the non-blocking
send into `sem` succeeds (`semCount < cap`), bumping both counters and
dispatching the handler, and otherwise the reject branch runs, which only
closes the connection (`conn.Close()`, no write); a finished handler's
goroutine releases its slot and decrements `currentConns`. -/
def acceptorStep (cap : Nat) (st : AcceptorState) : AcceptorEvent → AcceptorState × AcceptorAction
  | AcceptorEvent.acceptOk =>
      if st.semCount < cap then
        ({ semCount := st.semCount + 1,
           metrics := { currentConns := st.metrics.currentConns + 1,
                        totalConns := st.metrics.totalConns + 1 } },
         AcceptorAction.dispatched)
      else
        (st, AcceptorAction.rejectedClosed [])
  | AcceptorEvent.acceptErrTransient => (st, AcceptorAction.sleptMs 10)
  | AcceptorEvent.acceptErrOther => (st, AcceptorAction.loggedError)
  | AcceptorEvent.handlerDone =>
      ({ semCount := st.semCount - 1,
         metrics := { currentConns := st.metrics.currentConns - 1,
                      totalConns := st.metrics.totalConns } },
       AcceptorAction.released)

/-- Run the accept loop over a sequence of events, collecting the actions. -/
def runAcceptor (cap : Nat) (st : AcceptorState) : List AcceptorEvent → AcceptorState × List AcceptorAction
  | [] => (st, [])
  | ev :: rest =>
      let p := acceptorStep cap st ev
      let q := runAcceptor cap p.1 rest
      (q.1, p.2 :: q.2)

/-- The accept loop's state at process start: empty gate, zeroed counters. -/
def initialAcceptorState : AcceptorState :=
  { semCount := 0, metrics := { currentConns := 0, totalConns := 0 } }

/-- An event sequence is feasible when every `handlerDone` is the completion
of a goroutine that was actually dispatched earlier, i.e. fires while at
least one slot is held.  (`<-sem` on an empty channel would block, so the
real system never produces an infeasible sequence.) -/
def feasibleFrom (cap : Nat) : Nat → List AcceptorEvent → Bool
  | _, [] => true
  | sc, AcceptorEvent.acceptOk :: rest =>
      feasibleFrom cap (if sc < cap then sc + 1 else sc) rest
  | sc, AcceptorEvent.handlerDone :: rest => decide (0 < sc) && feasibleFrom cap (sc - 1) rest
  | sc, _ :: rest => feasibleFrom cap sc rest

/-- How many of the actions dispatched a handler. -/
def dispatchedCount : List AcceptorAction → Nat
  | [] => 0
  | AcceptorAction.dispatched :: rest => dispatchedCount rest + 1
  | _ :: rest => dispatchedCount rest

/-- How many of the actions released an admission slot. -/
def releasedCount : List AcceptorAction → Nat
  | [] => 0
  | AcceptorAction.released :: rest => releasedCount rest + 1
  | _ :: rest => releasedCount rest

/-! ## Server startup

src/server/server.go lines 37-76 (`main` before the loop): creating
`trace.out` or starting the trace fails → `log.Fatalf`; binding the primary
listener fails → `log.Fatalf`; otherwise the accept loop runs. -/

/-- Which of the fallible startup steps of src/server/server.go succeed. -/
structure StartupEnv where
  traceCreateOk : Bool
  traceStartOk : Bool
  bindOk : Bool
deriving DecidableEq

/-- Whether the process reaches the accept loop or exits. -/
inductive StartupOutcome where
  | fatalExit
  | running
deriving DecidableEq

/-- The startup sequence of `main` in src/server/server.go (lines 37-76), in
source order: `os.Create("trace.out")` (fatal on failure), `trace.Start`
(fatal on failure), then `net.Listen` (fatal on failure), then the loop. -/
def serverStartup (env : StartupEnv) : StartupOutcome :=
  if !env.traceCreateOk then StartupOutcome.fatalExit
  else if !env.traceStartOk then StartupOutcome.fatalExit
  else if !env.bindOk then StartupOutcome.fatalExit
  else StartupOutcome.running

namespace ClientMain

/-! src/client/client.go: the reconnect driver (`main`) and one
connect→serve→disconnect cycle (`connectAndWork`). -/

/-- Go `rand.Intn n`: some value in `[0, n)`; the source of randomness is an
arbitrary natural `r`. -/
def randIntn (n r : Nat) : Nat := r % n

/-- The backoff of src/client/client.go line 29,
`time.Duration(1000+rand.Intn(2000)) * time.Millisecond`, in milliseconds. -/
def backoffMs (r : Nat) : Nat := 1000 + randIntn 2000 r

/-- How the client's read loop treats one successfully read line (lines
90-96): a line byte-equal to `"PONG\n"` is discarded (`continue`), anything
else is printed as `"Server: " + msg`.  `none` = discarded, `some out` = the
text surfaced. -/
def clientHandleMsg (msg : Str) : Option Str :=
  if msg = "PONG\n".data then none else some ("Server: ".data ++ msg)

/-- One `reader.ReadString('\n')` outcome in the client's read loop: a full
line, or a read error (EOF or elapsed deadline). -/
inductive ClientRead where
  | msg (s : Str)
  | readErr
deriving DecidableEq

/-- The outcome of one connect→serve→disconnect cycle: whether
`close(stopHeartbeat)` was executed, whether the socket was closed (the
deferred `conn.Close()` of a cycle that dialed successfully), and the lines
surfaced to the caller, in order. -/
structure CycleResult where
  heartbeatStopSignaled : Bool
  socketClosed : Bool
  surfaced : List Str
deriving DecidableEq

/-- The client's read loop (src/client/client.go lines 80-97) over its read
outcomes: each line is handled by `clientHandleMsg`; the first read error
runs `close(stopHeartbeat)` and returns, at which point the deferred
`conn.Close()` closes the socket.  An exhausted list models a loop still
blocked in its next read. -/
def readLoop : List ClientRead → CycleResult
  | [] => { heartbeatStopSignaled := false, socketClosed := false, surfaced := [] }
  | ClientRead.msg s :: rest =>
      let r := readLoop rest
      match clientHandleMsg s with
      | none => r
      | some out => { r with surfaced := out :: r.surfaced }
  | ClientRead.readErr :: _ =>
      { heartbeatStopSignaled := true, socketClosed := true, surfaced := [] }

/-- The environment one cycle runs against: `net.ResolveTCPAddr` fails, or
`net.DialTimeout` fails, or the dial succeeds and the read loop sees the
given read outcomes. -/
inductive CycleInput where
  | resolveFail
  | dialFail
  | session (reads : List ClientRead)
deriving DecidableEq

/-- `connectAndWork` of src/client/client.go (lines 35-98): resolve failure
and dial failure print and return immediately (no socket was opened, nothing
surfaced); a successful dial runs the read loop. -/
def connectAndWork : CycleInput → CycleResult
  | CycleInput.resolveFail =>
      { heartbeatStopSignaled := false, socketClosed := false, surfaced := [] }
  | CycleInput.dialFail =>
      { heartbeatStopSignaled := false, socketClosed := false, surfaced := [] }
  | CycleInput.session reads => readLoop reads

/-- Iteration `n` of the infinite loop of `main` (src/client/client.go lines
24-32): run `connectAndWork` against that cycle's environment, then sleep the
jittered backoff drawn from that cycle's random value.  Defined for every
`n`: no cycle outcome ends the loop. -/
def clientCycle (inp : Nat → CycleInput) (rng : Nat → Nat) (n : Nat) : CycleResult × Nat :=
  (connectAndWork (inp n), backoffMs (rng n))

end ClientMain

/-- The claim's own stripping operation for C3 (spec wording: the line with
"only CR/LF stripped"): remove `'\r'`/`'\n'` characters, and only those, from
both ends of the line. -/
def stripCRLF (s : Str) : Str :=
  ((s.dropWhile fun c => c == '\r' || c == '\n').reverse.dropWhile fun c =>
      c == '\r' || c == '\n').reverse

/-! ## Helper lemmas -/

theorem pong_data : "PONG\n".data = ['P', 'O', 'N', 'G', '\n'] := rfl

theorem echo_data : "ECHO: ".data = ['E', 'C', 'H', 'O', ':', ' '] := rfl

theorem ping_data : "PING".data = ['P', 'I', 'N', 'G'] := rfl

/-- The echo reply can never collide with the heartbeat reply: its first
character is `'E'`, not `'P'`. -/
theorem echo_ne_pong (t : Str) : "ECHO: ".data ++ t ++ ['\n'] ≠ "PONG\n".data := by
  intro h
  rw [echo_data, pong_data] at h
  simp at h

theorem runAcceptor_nil (cap : Nat) (st : AcceptorState) : runAcceptor cap st [] = (st, []) := rfl

theorem runAcceptor_cons (cap : Nat) (st : AcceptorState) (ev : AcceptorEvent)
    (rest : List AcceptorEvent) :
    runAcceptor cap st (ev :: rest)
      = ((runAcceptor cap (acceptorStep cap st ev).1 rest).1,
         (acceptorStep cap st ev).2 :: (runAcceptor cap (acceptorStep cap st ev).1 rest).2) := rfl

/-- One accept-loop step never pushes the gate occupancy above capacity. -/
theorem acceptorStep_semCount_le {cap : Nat} {st : AcceptorState} (h : st.semCount ≤ cap)
    (ev : AcceptorEvent) : ((acceptorStep cap st ev).1).semCount ≤ cap := by
  cases ev with
  | acceptOk =>
    by_cases hlt : st.semCount < cap
    · simp [acceptorStep, hlt]
      omega
    · simp [acceptorStep, hlt]
      exact h
  | acceptErrTransient => exact h
  | acceptErrOther => exact h
  | handlerDone =>
    simp [acceptorStep]
    omega

/-- The gate occupancy stays at or below capacity along any run. -/
theorem runAcceptor_semCount_le (cap : Nat) :
    ∀ (evs : List AcceptorEvent) (st : AcceptorState), st.semCount ≤ cap →
      ((runAcceptor cap st evs).1).semCount ≤ cap
  | [], _, h => h
  | ev :: rest, st, h =>
      runAcceptor_semCount_le cap rest (acceptorStep cap st ev).1 (acceptorStep_semCount_le h ev)

/-- Slot conservation: along any feasible run, gate occupancy plus releases
equals the starting occupancy plus dispatches. -/
theorem runAcceptor_balance (cap : Nat) (evs : List AcceptorEvent) :
    ∀ st : AcceptorState, feasibleFrom cap st.semCount evs = true →
      ((runAcceptor cap st evs).1).semCount + releasedCount (runAcceptor cap st evs).2
        = st.semCount + dispatchedCount (runAcceptor cap st evs).2 := by
  induction evs with
  | nil =>
    intro st _
    simp [runAcceptor_nil, releasedCount, dispatchedCount]
  | cons ev rest ih =>
    intro st hf
    cases ev with
    | acceptOk =>
      by_cases hlt : st.semCount < cap
      · have hf' : feasibleFrom cap ((acceptorStep cap st AcceptorEvent.acceptOk).1).semCount rest = true := by
          simpa [feasibleFrom, acceptorStep, hlt] using hf
        have hih := ih (acceptorStep cap st AcceptorEvent.acceptOk).1 hf'
        simp only [runAcceptor_cons]
        simp only [acceptorStep, hlt, if_pos] at hih ⊢
        simp [releasedCount, dispatchedCount] at hih ⊢
        omega
      · have hf' : feasibleFrom cap ((acceptorStep cap st AcceptorEvent.acceptOk).1).semCount rest = true := by
          simpa [feasibleFrom, acceptorStep, hlt] using hf
        have hih := ih (acceptorStep cap st AcceptorEvent.acceptOk).1 hf'
        simp only [runAcceptor_cons]
        simp only [acceptorStep, hlt, if_neg] at hih ⊢
        simp [releasedCount, dispatchedCount] at hih ⊢
        omega
    | acceptErrTransient =>
      have hf' : feasibleFrom cap st.semCount rest = true := by
        simpa [feasibleFrom] using hf
      have hih := ih st hf'
      simp only [runAcceptor_cons, acceptorStep]
      simpa [releasedCount, dispatchedCount] using hih
    | acceptErrOther =>
      have hf' : feasibleFrom cap st.semCount rest = true := by
        simpa [feasibleFrom] using hf
      have hih := ih st hf'
      simp only [runAcceptor_cons, acceptorStep]
      simpa [releasedCount, dispatchedCount] using hih
    | handlerDone =>
      have hpos : 0 < st.semCount := by
        have := hf
        simp [feasibleFrom] at this
        exact this.1
      have hf' : feasibleFrom cap ((acceptorStep cap st AcceptorEvent.handlerDone).1).semCount rest = true := by
        have := hf
        simp [feasibleFrom, acceptorStep] at this ⊢
        exact this.2
      have hih := ih (acceptorStep cap st AcceptorEvent.handlerDone).1 hf'
      simp only [runAcceptor_cons]
      simp only [acceptorStep] at hih ⊢
      simp [releasedCount, dispatchedCount] at hih ⊢
      omega

theorem countRelease_append (xs ys : List HEvent) :
    countRelease (xs ++ ys) = countRelease xs + countRelease ys := by
  induction xs with
  | nil => simp [countRelease]
  | cons x rest ih =>
    cases x <;> simp [countRelease, ih]
    omega

theorem countTimeoutIncr_append (xs ys : List HEvent) :
    countTimeoutIncr (xs ++ ys) = countTimeoutIncr xs + countTimeoutIncr ys := by
  induction xs with
  | nil => simp [countTimeoutIncr]
  | cons x rest ih =>
    cases x <;> simp [countTimeoutIncr, ih]
    omega

theorem countRelease_lineEvents (s : Str) : countRelease (ServerMain.lineEvents s) = 0 := by
  rw [ServerMain.lineEvents]
  split <;> simp [countRelease]

theorem countRelease_handleLoop : ∀ inputs : List ReadResult,
    countRelease (ServerMain.handleLoop inputs) = 0
  | [] => rfl
  | ReadResult.line s :: rest => by
      simp [ServerMain.handleLoop, countRelease_append, countRelease_lineEvents,
        countRelease_handleLoop rest]
  | ReadResult.err e :: _ => by
      simp only [ServerMain.handleLoop]
      split <;> simp [countRelease]

theorem countTimeoutIncr_lineEvents (s : Str) :
    countTimeoutIncr (ServerMain.lineEvents s) = 0 := by
  rw [ServerMain.lineEvents]
  split <;> simp [countTimeoutIncr]

/-- Over a full terminated run, the timeout counter is incremented exactly
once when the final read error is a non-EOF net timeout error, else never. -/
theorem countTimeoutIncr_handleLoop (e : ReadErr) : ∀ lines : List Str,
    countTimeoutIncr (ServerMain.handleLoop (runInputs lines e))
      = (if !e.isEOF && e.isNetError && e.isTimeout then 1 else 0)
  | [] => by
      simp only [runInputs, List.map_nil, List.nil_append, ServerMain.handleLoop]
      split <;> simp [countTimeoutIncr]
  | s :: rest => by
      have hrest := countTimeoutIncr_handleLoop e rest
      simp only [runInputs, List.map_cons, List.cons_append, ServerMain.handleLoop]
      rw [countTimeoutIncr_append, countTimeoutIncr_lineEvents]
      simpa [runInputs] using hrest

/-- The two variants' per-line events agree (their timeouts and strings are
literally equal). -/
theorem lineEvents_variants_eq (s : Str) : ServerMain.lineEvents s = Part000.lineEvents s := rfl

/-- The two variants' read/reply loops agree on every input sequence. -/
theorem handleLoop_variants_eq : ∀ inputs : List ReadResult,
    ServerMain.handleLoop inputs = Part000.handleLoop inputs
  | [] => rfl
  | ReadResult.line s :: rest => by
      simp [ServerMain.handleLoop, Part000.handleLoop, lineEvents_variants_eq,
        handleLoop_variants_eq rest]
  | ReadResult.err _ :: _ => rfl

/-- Once the client's read loop hits a read error, the stop signal was sent
and the socket closed. -/
theorem readLoop_readErr_flags : ∀ reads : List ClientMain.ClientRead,
    ClientMain.ClientRead.readErr ∈ reads →
      (ClientMain.readLoop reads).heartbeatStopSignaled = true
      ∧ (ClientMain.readLoop reads).socketClosed = true := by
  intro reads h
  induction reads with
  | nil => cases h
  | cons x rest ih =>
    cases x with
    | readErr => simp [ClientMain.readLoop]
    | msg s =>
      have hr : ClientMain.ClientRead.readErr ∈ rest := by
        rcases List.mem_cons.mp h with h1 | h2
        · cases h1
        · exact h2
      have hih := ih hr
      simp only [ClientMain.readLoop]
      cases hm : ClientMain.clientHandleMsg s <;> simp [hm, hih.1, hih.2]

/-! ## The claims -/

/-- Claim C1: for every fixed capacity `cap`, at most `cap` handlers are ever
active simultaneously (the gate occupancy never exceeds `cap` along any run
from the initial state), and an accepted connection arriving while all `cap`
permits are held is rejected: the acceptor's step leaves the state unchanged
(no queuing) and synchronously closes the connection having sent it zero
bytes. -/
theorem C1_admission_bound (cap : Nat) (evs : List AcceptorEvent) :
    ((runAcceptor cap initialAcceptorState evs).1).semCount ≤ cap
    ∧ (∀ st : AcceptorState, cap ≤ st.semCount →
        acceptorStep cap st AcceptorEvent.acceptOk = (st, AcceptorAction.rejectedClosed [])) := by
  constructor
  · exact runAcceptor_semCount_le cap evs initialAcceptorState (Nat.zero_le cap)
  · intro st h
    simp [acceptorStep, Nat.not_lt.mpr h]

/-- Claim C2: in the Active state, a successfully read line whose
`strings.TrimSpace` equals exactly `"PING"` makes the server reply exactly
`"PONG\n"` (under fresh read/write deadlines, flushed) and continue the loop
(remain Active); a line whose trimmed form is anything else never produces
the heartbeat reply. -/
theorem C2_heartbeat (s : Str) (rest : List ReadResult) :
    (trimSpace s = "PING".data →
      ServerMain.lineEvents s
        = [HEvent.setReadDeadline ServerMain.readTimeout,
           HEvent.setWriteDeadline ServerMain.writeTimeout,
           HEvent.write "PONG\n".data, HEvent.flush]
      ∧ ServerMain.handleLoop (ReadResult.line s :: rest)
          = ServerMain.lineEvents s ++ ServerMain.handleLoop rest)
    ∧ (trimSpace s ≠ "PING".data →
        HEvent.write "PONG\n".data ∉ ServerMain.lineEvents s) := by
  constructor
  · intro h
    exact ⟨by rw [ServerMain.lineEvents]; simp [h], rfl⟩
  · intro h
    rw [ServerMain.lineEvents]
    simp only [if_neg h]
    intro hmem
    simp only [List.mem_cons, List.not_mem_nil, or_false] at hmem
    rcases hmem with h1 | h1 | h1 | h1
    · exact HEvent.noConfusion h1
    · exact HEvent.noConfusion h1
    · exact echo_ne_pong (trimSpace s) (HEvent.write.inj h1).symm
    · exact HEvent.noConfusion h1

/-- Claim C3 counterexample: the claim says the reply is a fixed tag plus the
line with only CR/LF stripped plus a newline.  The code trims all surrounding
whitespace: the lines `"a\n"` and `"a \n"` get the same reply `"ECHO: a\n"`
although their CR/LF-stripped forms `"a"` and `"a "` differ in length, which
no fixed tag can reconcile; in particular for `" a\n"` the reply differs from
the tag-plus-stripped-line shape at the code's own tag `"ECHO: "`. -/
theorem C3_counterexample :
    writesOf (ServerMain.lineEvents " a\n".data) = ["ECHO: a\n".data]
    ∧ writesOf (ServerMain.lineEvents "a\n".data) = ["ECHO: a\n".data]
    ∧ writesOf (ServerMain.lineEvents "a \n".data) = ["ECHO: a\n".data]
    ∧ stripCRLF " a\n".data = " a".data
    ∧ stripCRLF "a \n".data = "a ".data
    ∧ stripCRLF "a\n".data = "a".data
    ∧ "ECHO: a\n".data ≠ "ECHO: ".data ++ stripCRLF " a\n".data ++ ['\n']
    ∧ (stripCRLF "a\n".data).length ≠ (stripCRLF "a \n".data).length := by
  refine ⟨by decide, by decide, by decide, by decide, by decide, by decide, by decide, by decide⟩

/-- Claim C3 amended: for every successfully read line that is not a
heartbeat, with all surrounding whitespace trimmed (Go `strings.TrimSpace`,
not only CR/LF), the reply is the fixed tag `"ECHO: "` concatenated with the
trimmed line and a single trailing newline, and the handler continues with
the next read. -/
theorem C3_echo_amended (s : Str) (rest : List ReadResult)
    (h : trimSpace s ≠ "PING".data) :
    ServerMain.lineEvents s
      = [HEvent.setReadDeadline ServerMain.readTimeout,
         HEvent.setWriteDeadline ServerMain.writeTimeout,
         HEvent.write ("ECHO: ".data ++ trimSpace s ++ ['\n']), HEvent.flush]
    ∧ ServerMain.handleLoop (ReadResult.line s :: rest)
        = ServerMain.lineEvents s ++ ServerMain.handleLoop rest := by
  refine ⟨?_, rfl⟩
  rw [ServerMain.lineEvents]
  simp [h]

/-- Witness for C3's amended theorem at the line `"hello\n"`. -/
theorem C3_echo_amended_witness :
    ServerMain.lineEvents "hello\n".data
      = [HEvent.setReadDeadline ServerMain.readTimeout,
         HEvent.setWriteDeadline ServerMain.writeTimeout,
         HEvent.write ("ECHO: ".data ++ trimSpace "hello\n".data ++ ['\n']), HEvent.flush]
    ∧ ServerMain.handleLoop [ReadResult.line "hello\n".data]
        = ServerMain.lineEvents "hello\n".data ++ ServerMain.handleLoop [] :=
  C3_echo_amended "hello\n".data [] (by decide)

/-- Claim C4: the handler goroutine releases its admission slot exactly once
for every terminated run, whatever the termination cause (the final read
error `e` is arbitrary: EOF, timeout, or any I/O error), and along any
feasible balanced run (every dispatched handler finished) the gate occupancy
returns to its initial value 0, after which a new connection is admitted
whenever the capacity is positive. -/
theorem C4_release_pairing (cap : Nat) (lines : List Str) (e : ReadErr)
    (evs : List AcceptorEvent) :
    countRelease (ServerMain.connGoroutine (runInputs lines e)) = 1
    ∧ (feasibleFrom cap 0 evs = true →
       releasedCount (runAcceptor cap initialAcceptorState evs).2
          = dispatchedCount (runAcceptor cap initialAcceptorState evs).2 →
       ((runAcceptor cap initialAcceptorState evs).1.semCount = 0
        ∧ (0 < cap →
            (acceptorStep cap (runAcceptor cap initialAcceptorState evs).1
                AcceptorEvent.acceptOk).2
              = AcceptorAction.dispatched))) := by
  constructor
  · rw [ServerMain.connGoroutine, ServerMain.handleConnection]
    simp [countRelease_append, countRelease_handleLoop, countRelease]
  · intro hfeas hbal
    have hb := runAcceptor_balance cap evs initialAcceptorState hfeas
    have h0 : (runAcceptor cap initialAcceptorState evs).1.semCount = 0 := by
      have hsem : initialAcceptorState.semCount = 0 := rfl
      rw [hsem, hbal] at hb
      omega
    refine ⟨h0, fun hcap => ?_⟩
    simp [acceptorStep, h0, hcap]

/-- Claim C5 counterexample: a read failure whose deadline was forced into
the past by the TTL watchdog surfaces as a non-EOF net timeout error, and the
handler increments the timeout-error counter for it exactly as for an
ordinary idle timeout — the code never classifies a `TTLExpired` cause apart
from `IdleTimeout`, so the counter does not increment only for the idle
cause. -/
theorem C5_counterexample :
    ttlForcedTimeout.ttlForced = true
    ∧ countTimeoutIncr (ServerMain.handleLoop [ReadResult.err ttlForcedTimeout]) = 1 :=
  ⟨rfl, rfl⟩

/-- Claim C5 amended: over any terminated run, the timeout-error counter is
incremented exactly once iff the final read error is a non-EOF net timeout
error — whether or not the expired deadline was forced by the TTL watchdog
(the increment condition is insensitive to the TTL cause). -/
theorem C5_timeout_counter (lines : List Str) (e : ReadErr) :
    countTimeoutIncr (ServerMain.connGoroutine (runInputs lines e))
      = (if !e.isEOF && e.isNetError && e.isTimeout then 1 else 0)
    ∧ (!({ e with ttlForced := true } : ReadErr).isEOF
         && ({ e with ttlForced := true } : ReadErr).isNetError
         && ({ e with ttlForced := true } : ReadErr).isTimeout)
        = (!e.isEOF && e.isNetError && e.isTimeout) := by
  constructor
  · rw [ServerMain.connGoroutine, ServerMain.handleConnection]
    simp [countTimeoutIncr_append, countTimeoutIncr, countTimeoutIncr_handleLoop e lines]
  · rfl

/-- Claim C6: every reconnect backoff lies in [1000 ms, 3000 ms), and the
backoff slept after cycle `n` is the same fixed function of that cycle's own
random draw alone — no growth across cycles or failures. -/
theorem C6_backoff_range (r n : Nat) (inp : Nat → ClientMain.CycleInput)
    (rng : Nat → Nat) :
    1000 ≤ ClientMain.backoffMs r
    ∧ ClientMain.backoffMs r < 3000
    ∧ (ClientMain.clientCycle inp rng n).2 = ClientMain.backoffMs (rng n) := by
  refine ⟨by simp [ClientMain.backoffMs], ?_, rfl⟩
  have h : r % 2000 < 2000 := Nat.mod_lt _ (by omega)
  simp only [ClientMain.backoffMs, ClientMain.randIntn]
  omega

/-- Claim C7: the client never terminates on a connection error: a resolve
failure and a dial failure each return a cycle result (falling through to
backoff, nothing surfaced, no socket ever opened), a read failure makes the
read loop signal the heartbeat task to stop and close the socket, and every
iteration `n` of the outer loop runs one cycle followed by a backoff — the
loop is defined for every `n`, with no exiting outcome. -/
theorem C7_client_never_terminates (inp : Nat → ClientMain.CycleInput)
    (rng : Nat → Nat) (n : Nat) (reads : List ClientMain.ClientRead) :
    (ClientMain.ClientRead.readErr ∈ reads →
      (ClientMain.connectAndWork (ClientMain.CycleInput.session reads)).heartbeatStopSignaled
          = true
      ∧ (ClientMain.connectAndWork (ClientMain.CycleInput.session reads)).socketClosed = true)
    ∧ ClientMain.connectAndWork ClientMain.CycleInput.resolveFail
        = { heartbeatStopSignaled := false, socketClosed := false, surfaced := [] }
    ∧ ClientMain.connectAndWork ClientMain.CycleInput.dialFail
        = { heartbeatStopSignaled := false, socketClosed := false, surfaced := [] }
    ∧ ClientMain.clientCycle inp rng n
        = (ClientMain.connectAndWork (inp n), ClientMain.backoffMs (rng n)) := by
  refine ⟨?_, rfl, rfl, rfl⟩
  intro h
  exact readLoop_readErr_flags reads h

/-- Claim C8 counterexample: with the primary listener bind succeeding but
the trace-output file creation failing, the server process exits fatally at
startup — so listener-bind failure is not the only error that terminates the
process. -/
theorem C8_counterexample :
    serverStartup { traceCreateOk := false, traceStartOk := true, bindOk := true }
      = StartupOutcome.fatalExit
    ∧ ({ traceCreateOk := false, traceStartOk := true, bindOk := true } : StartupEnv).bindOk
        = true :=
  ⟨rfl, rfl⟩

/-- Claim C8 amended: the accept loop never stops accepting on accept errors
— a transient accept error sleeps a fixed 10 ms and retries, any other accept
error is logged and the loop continues, in both cases with the state (and
listener) unchanged; but at startup not only listener-bind failure is fatal:
the process reaches the accept loop iff trace-file creation, trace start and
the listener bind all succeed. -/
theorem C8_accept_errors (cap : Nat) (st : AcceptorState) (rest : List AcceptorEvent)
    (env : StartupEnv) :
    acceptorStep cap st AcceptorEvent.acceptErrTransient = (st, AcceptorAction.sleptMs 10)
    ∧ acceptorStep cap st AcceptorEvent.acceptErrOther = (st, AcceptorAction.loggedError)
    ∧ (runAcceptor cap st (AcceptorEvent.acceptErrTransient :: rest)).1
        = (runAcceptor cap st rest).1
    ∧ (runAcceptor cap st (AcceptorEvent.acceptErrOther :: rest)).1
        = (runAcceptor cap st rest).1
    ∧ (serverStartup env = StartupOutcome.running
        ↔ env.traceCreateOk = true ∧ env.traceStartOk = true ∧ env.bindOk = true) := by
  refine ⟨rfl, rfl, rfl, rfl, ?_⟩
  rcases env with ⟨a, b, c⟩
  cases a <;> cases b <;> cases c <;> simp [serverStartup]

/-- Claim C9: the two variants' connection handlers are behaviorally
equivalent — on every sequence of read results they perform identical event
traces (same replies, deadline settings and counter updates), and their
timeout and TTL configuration constants coincide. -/
theorem C9_handlers_equivalent (inputs : List ReadResult) :
    ServerMain.handleConnection inputs = Part000.handleConnection inputs
    ∧ ServerMain.readTimeout = Part000.readTimeout
    ∧ ServerMain.writeTimeout = Part000.writeTimeout
    ∧ ServerMain.maxConnAge = Part000.maxConnAge := by
  refine ⟨?_, rfl, rfl, rfl⟩
  rw [ServerMain.handleConnection, Part000.handleConnection, handleLoop_variants_eq]
  rfl

/-- Claim C10: the client discards a received line without surfacing it iff
the line is byte-for-byte `"PONG\n"`; the variants `"PONG\r\n"` and
`"PONG \n"` are surfaced as ordinary application data. -/
theorem C10_pong_discard (msg : Str) :
    (ClientMain.clientHandleMsg msg = none ↔ msg = "PONG\n".data)
    ∧ ClientMain.clientHandleMsg "PONG\r\n".data
        = some ("Server: ".data ++ "PONG\r\n".data)
    ∧ ClientMain.clientHandleMsg "PONG \n".data
        = some ("Server: ".data ++ "PONG \n".data)
    ∧ ClientMain.readLoop [ClientMain.ClientRead.msg "PONG\n".data]
        = { heartbeatStopSignaled := false, socketClosed := false, surfaced := [] } := by
  refine ⟨?_, by decide, by decide, by decide⟩
  constructor
  · intro h
    by_contra hne
    simp [ClientMain.clientHandleMsg, hne] at h
  · intro h
    simp [ClientMain.clientHandleMsg, h]

end TcpSockPro
